import Mathlib

/-!
Shallow embedding of `src/dmf24util/process.py` (a Python 2.7 module of
subprocess wrappers): tokenization, spawning, result collection, the bounded
poll loop, and the guarded / interactively confirmed runners, together with
proofs of the specified properties.

External collaborators (the OS process primitive, the tokenizer, the
standard-library `Popen` object) are modelled explicitly: a `World` function
gives the behaviour of each spawned command, an `OsTable` records which token
lists have actually been spawned, and a `Popen` record carries the mutable
handle state (`returncode`, pipe closedness) with Python 2.7 semantics.
-/

namespace Dmf24

/-- Whitespace characters recognised by the tokenizer (Python `shlex`
whitespace: space, tab, carriage return, newline). -/
def isWordspace (c : Char) : Bool :=
  c = ' ' || c = '\t' || c = '\r' || c = '\n'

/-- Helper for `tokenize`: split a character list into maximal runs of
non-whitespace characters; `acc` holds the current word reversed. -/
def splitWordsAux : List Char → List Char → List (List Char)
  | [], [] => []
  | [], acc => [acc.reverse]
  | c :: cs, acc =>
    if isWordspace c then
      match acc with
      | [] => splitWordsAux cs []
      | _ :: _ => acc.reverse :: splitWordsAux cs []
    else splitWordsAux cs (c :: acc)

/-- Model of the external tokenizer `shlex.split` on command strings free of
quoting and escape characters (the only strings the specified properties
exercise): the maximal whitespace-separated words of the string, in order.
Empty and whitespace-only strings yield zero tokens, as `shlex.split` does. -/
def tokenize (s : String) : List String :=
  (splitWordsAux s.data []).map String.mk

/-- The exceptions the wrappers can raise: `invalidCommand` is the spawn-time
failure on an empty token list (`Popen` raises on `args[0]` before any process
is started); `valueError` is the error raised when a closed stream is used
again (ValueError: I-O operation on closed file). -/
inductive PyError where
  | invalidCommand
  | valueError
deriving Repr, DecidableEq

/-- What the operating system does for one spawned token list: the eventual
exit code of the child and everything it writes to stdout and stderr. -/
structure ProcBehavior where
  code : Int
  out : String
  err : String

/-- The outside world: assigns to every token list the behaviour of the
process it would start. -/
abbrev World := List String → ProcBehavior

/-- The OS process table: the token lists of the processes actually started,
in spawn order. Spawning appends; a failed spawn appends nothing. -/
abbrev OsTable := List (List String)

/-- State of a `subprocess.Popen` handle whose stdout and stderr are pipes:
`code`, `outData`, `errData` describe the child process; `returncode` is the
mutable returncode field (None until an exit status has been observed);
`streamsClosed` records whether `communicate` has already drained and closed
the two pipes. -/
structure Popen where
  code : Int
  outData : String
  errData : String
  returncode : Option Int
  streamsClosed : Bool
deriving Repr, DecidableEq

/-- The (returncode, stdout, stderr) triple produced by `process_results`.
The returncode is an `Option Int` exactly as the `Popen` field it is read
from; after a completed `communicate` it is always `some`. -/
structure ProcessResult where
  returncode : Option Int
  stdout : String
  stderr : String
deriving Repr, DecidableEq

/-- `Popen.communicate` for a handle with both output pipes open, Python 2.7
semantics: the first call drains both pipes, closes them, waits for the child
and stores its exit status in `returncode`; a later call finds the pipes
already closed and raises ValueError when it registers them for select or
poll (CPython 2.7 keeps no cache of a previous communicate). -/
def communicate (p : Popen) : Except PyError (Popen × String × String) :=
  if p.streamsClosed then
    Except.error PyError.valueError
  else
    Except.ok ({ p with returncode := some p.code, streamsClosed := true },
               p.outData, p.errData)

/-- `process_run(cmd_string, stdin)`: tokenize the command string and start a
process. An empty token list makes `Popen` raise before any process is
started; otherwise the spawn is recorded in the process table and a fresh
handle is returned. The `stdin` argument only selects the standard input of
the child and affects nothing the specified properties observe. -/
def process_run (w : World) (os : OsTable) (cmd_string : String)
    (_stdin : Option String) : OsTable × Except PyError Popen :=
  let toks := tokenize cmd_string
  if toks = [] then
    (os, Except.error PyError.invalidCommand)
  else
    let b := w toks
    (os ++ [toks],
     Except.ok { code := b.code, outData := b.out, errData := b.err,
                 returncode := none, streamsClosed := false })

/-- `process_results(process_object)`: call `communicate`, then return the
(returncode, stdout, stderr) triple; the updated handle state is exposed
alongside the result. -/
def process_results (p : Popen) : Except PyError (Popen × ProcessResult) :=
  match communicate p with
  | Except.error e => Except.error e
  | Except.ok (p2, stdout, stderr) =>
      Except.ok (p2, { returncode := p2.returncode, stdout := stdout, stderr := stderr })

/-- `run_processes(cmdlist)`: the list comprehension spawning every command in
order. A raised spawn exception propagates at once: the commands after it are
not spawned and no partial list is produced, while the spawns already made
stay in the process table. -/
def run_processes (w : World) (os : OsTable) (cmdlist : List String) :
    OsTable × Except PyError (List Popen) :=
  match cmdlist with
  | [] => (os, Except.ok [])
  | cmd :: rest =>
    match process_run w os cmd none with
    | (os2, Except.error e) => (os2, Except.error e)
    | (os2, Except.ok p) =>
      match run_processes w os2 rest with
      | (os3, Except.error e) => (os3, Except.error e)
      | (os3, Except.ok ps) => (os3, Except.ok (p :: ps))

/-- The list comprehension inside `processes`: collect the result of each
handle in order; an exception from `process_results` propagates. -/
def collect_results (procs : List Popen) : Except PyError (List ProcessResult) :=
  match procs with
  | [] => Except.ok []
  | p :: rest =>
    match process_results p with
    | Except.error e => Except.error e
    | Except.ok (_, r) =>
      match collect_results rest with
      | Except.error e => Except.error e
      | Except.ok rs => Except.ok (r :: rs)

/-- `processes(cmdlist)`: spawn the whole list, then wait on every handle in
input order and return the result triples. -/
def processes (w : World) (os : OsTable) (cmdlist : List String) :
    OsTable × Except PyError (List ProcessResult) :=
  match run_processes w os cmdlist with
  | (os2, Except.error e) => (os2, Except.error e)
  | (os2, Except.ok procs) => (os2, collect_results procs)

/-- `process(cmd_string, stdin)`: spawn one command and wait for its result. -/
def process (w : World) (os : OsTable) (cmd_string : String)
    (stdin : Option String) : OsTable × Except PyError ProcessResult :=
  match process_run w os cmd_string stdin with
  | (os2, Except.error e) => (os2, Except.error e)
  | (os2, Except.ok p) =>
    match process_results p with
    | Except.error e => (os2, Except.error e)
    | Except.ok (_, r) => (os2, Except.ok r)

/-- The handle state immediately after `process_run` spawns `cmd`. -/
def spawnedHandle (w : World) (cmd : String) : Popen :=
  { code := (w (tokenize cmd)).code, outData := (w (tokenize cmd)).out,
    errData := (w (tokenize cmd)).err, returncode := none, streamsClosed := false }

/-- The result triple that spawning `cmd` and collecting it produces under
world `w`. -/
def runResult (w : World) (cmd : String) : ProcessResult :=
  { returncode := some (w (tokenize cmd)).code,
    stdout := (w (tokenize cmd)).out,
    stderr := (w (tokenize cmd)).err }

/-- Where one write of `typical_process` goes: the configured stdout sink or
the configured stderr sink. -/
inductive Sink where
  | out
  | err
deriving Repr, DecidableEq

/-- How `typical_process` finishes: `exited code` models `sys.exit(code)`,
`returned r` a normal return of the result triple. -/
inductive Termination where
  | exited (code : Option Int)
  | returned (r : ProcessResult)
deriving Repr, DecidableEq

/-- Observable outcome of `typical_process`: every write made to the sinks,
in program order, and how the call finished. -/
structure TypicalOut where
  writes : List (Sink × String)
  outcome : Termination
deriving Repr, DecidableEq

/-- `typical_process(cmd_string, error_message, stdin, stdout, stderr)`: run
the command, write the captured stderr to the error sink and then the captured
stdout to the output sink; on a returncode other than 0 additionally write the
error message to the error sink and call `sys.exit` with the returncode,
otherwise return the result triple. A spawn exception propagates. -/
def typical_process (w : World) (os : OsTable) (cmd_string error_message : String)
    (stdin : Option String) : OsTable × Except PyError TypicalOut :=
  match process w os cmd_string stdin with
  | (os2, Except.error e) => (os2, Except.error e)
  | (os2, Except.ok results) =>
    let ws := [(Sink.err, results.stderr), (Sink.out, results.stdout)]
    if results.returncode ≠ some 0 then
      (os2, Except.ok { writes := ws ++ [(Sink.err, error_message)],
                        outcome := Termination.exited results.returncode })
    else
      (os2, Except.ok { writes := ws, outcome := Termination.returned results })

/-- ASCII uppercase of one byte, as the C toupper of Python 2 in the default
locale: the twenty-six lowercase letters map to their uppercase forms and
every other character is unchanged. -/
def asciiUpper (c : Char) : Char :=
  if c = 'a' then 'A' else if c = 'b' then 'B' else if c = 'c' then 'C'
  else if c = 'd' then 'D' else if c = 'e' then 'E' else if c = 'f' then 'F'
  else if c = 'g' then 'G' else if c = 'h' then 'H' else if c = 'i' then 'I'
  else if c = 'j' then 'J' else if c = 'k' then 'K' else if c = 'l' then 'L'
  else if c = 'm' then 'M' else if c = 'n' then 'N' else if c = 'o' then 'O'
  else if c = 'p' then 'P' else if c = 'q' then 'Q' else if c = 'r' then 'R'
  else if c = 's' then 'S' else if c = 't' then 'T' else if c = 'u' then 'U'
  else if c = 'v' then 'V' else if c = 'w' then 'W' else if c = 'x' then 'X'
  else if c = 'y' then 'Y' else if c = 'z' then 'Z' else c

/-- ASCII lowercase of one byte, as the C tolower of Python 2 in the default
locale. -/
def asciiLower (c : Char) : Char :=
  if c = 'A' then 'a' else if c = 'B' then 'b' else if c = 'C' then 'c'
  else if c = 'D' then 'd' else if c = 'E' then 'e' else if c = 'F' then 'f'
  else if c = 'G' then 'g' else if c = 'H' then 'h' else if c = 'I' then 'i'
  else if c = 'J' then 'j' else if c = 'K' then 'k' else if c = 'L' then 'l'
  else if c = 'M' then 'm' else if c = 'N' then 'n' else if c = 'O' then 'o'
  else if c = 'P' then 'p' else if c = 'Q' then 'q' else if c = 'R' then 'r'
  else if c = 'S' then 's' else if c = 'T' then 't' else if c = 'U' then 'u'
  else if c = 'V' then 'v' else if c = 'W' then 'w' else if c = 'X' then 'x'
  else if c = 'Y' then 'y' else if c = 'Z' then 'z' else c

/-- Python 2 `str.capitalize`: the first byte is uppercased and every later
byte is lowercased. -/
def pyCapitalize (s : String) : String :=
  match s.data with
  | [] => ""
  | c :: cs => String.mk (asciiUpper c :: cs.map asciiLower)

/-- Equality of `Except` values is decidable when it is on both sides. -/
instance exceptDecEq {ε α : Type} [DecidableEq ε] [DecidableEq α] :
    DecidableEq (Except ε α) := fun a b =>
  match a, b with
  | Except.error e1, Except.error e2 => decidable_of_iff (e1 = e2) (by simp)
  | Except.error _, Except.ok _ => isFalse (fun h => Except.noConfusion h)
  | Except.ok _, Except.error _ => isFalse (fun h => Except.noConfusion h)
  | Except.ok v1, Except.ok v2 => decidable_of_iff (v1 = v2) (by simp)

/-- Observable outcome of `dangerous_process`: `banner` is the Running line
printed to sys.stdout before the prompt; `sudoValidated` records whether
`validate_sudo` (sudo -v) ran; `guarded` is the outcome of the
`typical_process` call made after confirmation, `none` when the user declined;
`ret` is the value the function body returns when control reaches its end
(the body has no return statement, so it is always None). -/
structure DangerousOut where
  banner : String
  sudoValidated : Bool
  guarded : Option (Except PyError TypicalOut)
  ret : Option ProcessResult
deriving Repr, DecidableEq

/-- `dangerous_process(cmd_string, error_message, stdin, stdout, stderr,
sudo)`: print the command, read the confirmation line `checkval` from
standard input, and run `typical_process` only when
`checkval.capitalize() == "Y"`; with `sudo` set, `validate_sudo` runs first.
The result of the guarded run is discarded. -/
def dangerous_process (w : World) (os : OsTable) (cmd_string error_message : String)
    (stdin : Option String) (sudoFlag : Bool) (checkval : String) : OsTable × DangerousOut :=
  let banner := "Running: " ++ cmd_string ++ "\n"
  if pyCapitalize checkval = "Y" then
    let r := typical_process w os cmd_string error_message stdin
    (r.1, { banner := banner, sudoValidated := sudoFlag, guarded := some r.2, ret := none })
  else
    (os, { banner := banner, sudoValidated := false, guarded := none, ret := none })

/-- A live process handle as the poll loop sees it: `finishAt` is the pass
index (0 is the first status check, k is the check after k sleeps) from which
`proc.poll()` observes the exit status `code`; `none` models a process that
never exits while being polled. -/
structure PollProc where
  code : Int
  finishAt : Option Nat
deriving Repr, DecidableEq

/-- One status-check pass at pass index `k`: the returncode field of each
handle after `proc.poll()` has run on it. -/
def pollOnce (procs : List PollProc) (k : Nat) : List (Option Int) :=
  procs.map (fun p =>
    match p.finishAt with
    | some f => if f ≤ k then some p.code else none
    | none => none)

/-- `poll_processes(proclist, wait, tries)`, evaluated with explicit fuel
since the recursion has no intrinsic termination argument: poll every handle,
and if `tries != 0` and some returncode is still None, sleep `wait` seconds,
recurse with `tries - 1`, and return the handle list. `none` means the
recursion did not finish within `fuel` nested calls; `some (s, codes)` means
it returned after `s` sleeps with final returncodes `codes`. `k` is the pass
index (0 at entry); `wait` is passed through unchanged exactly as in the
source; the `debug` argument only writes log lines and is omitted. -/
def poll_processes (procs : List PollProc) (wait tries : Int) (k fuel : Nat) :
    Option (Nat × List (Option Int)) :=
  match fuel with
  | 0 => none
  | fuel2 + 1 =>
    let codes := pollOnce procs k
    if tries ≠ 0 ∧ none ∈ codes then
      match poll_processes procs wait (tries - 1) (k + 1) fuel2 with
      | none => none
      | some (s, final) => some (s + 1, final)
    else
      some (0, codes)

/-! ### Helper lemmas -/

/-- One retry step of the poll loop: with tries left and an unfinished handle,
the call sleeps once and recurses with one try fewer at the next pass. -/
theorem poll_processes_step (procs : List PollProc) (wait tries : Int) (k fuel2 : Nat)
    (h1 : tries ≠ 0) (h2 : none ∈ pollOnce procs k) :
    poll_processes procs wait tries k (fuel2 + 1) =
      match poll_processes procs wait (tries - 1) (k + 1) fuel2 with
      | none => none
      | some (s, final) => some (s + 1, final) := by
  simp [poll_processes, h1, h2]

/-- Terminal case of the poll loop: with the retry guard false, the call
returns at once, after zero sleeps, with the statuses of the current pass. -/
theorem poll_processes_done (procs : List PollProc) (wait tries : Int) (k fuel2 : Nat)
    (h : ¬ (tries ≠ 0 ∧ none ∈ pollOnce procs k)) :
    poll_processes procs wait tries k (fuel2 + 1) = some (0, pollOnce procs k) := by
  simp only [poll_processes, if_neg h]

/-- With a non-negative tries value T the poll loop terminates within T + 1
nested calls, sleeps at most T times, and sleeps at most j times whenever the
pass after j sleeps would already observe every handle finished. -/
theorem poll_terminates_of_nonneg (procs : List PollProc) (wait : Int) :
    ∀ T k : Nat, ∃ s codes,
      poll_processes procs wait (T : Int) k (T + 1) = some (s, codes) ∧
      s ≤ T ∧ ∀ j : Nat, ¬ none ∈ pollOnce procs (k + j) → s ≤ j := by
  intro T
  induction T with
  | zero =>
    intro k
    exact ⟨0, pollOnce procs k,
      poll_processes_done procs wait 0 k 0 (by simp),
      Nat.le_refl 0, fun j _ => Nat.zero_le j⟩
  | succ T ih =>
    intro k
    by_cases hmem : none ∈ pollOnce procs k
    · obtain ⟨s, codes, h1, h2, h3⟩ := ih (k + 1)
      have hstep := poll_processes_step procs wait ((T + 1 : Nat) : Int) k (T + 1)
        (by exact_mod_cast Nat.succ_ne_zero T) hmem
      have hcast : ((T + 1 : Nat) : Int) - 1 = ((T : Nat) : Int) := by push_cast; ring
      rw [hcast, h1] at hstep
      refine ⟨s + 1, codes, hstep, by omega, ?_⟩
      intro j hj
      match j with
      | 0 => exact absurd hmem (by simpa using hj)
      | j2 + 1 =>
        have hle : s ≤ j2 := h3 j2 (by rw [show k + 1 + j2 = k + (j2 + 1) by omega]; exact hj)
        omega
    · exact ⟨0, pollOnce procs k,
        poll_processes_done procs wait _ k (T + 1) (fun hh => hmem hh.2),
        Nat.zero_le _, fun j _ => Nat.zero_le j⟩

/-- An empty token list comes exactly from an all-whitespace accumulator-free
run of the splitter. -/
theorem splitWordsAux_eq_nil_iff :
    ∀ cs acc : List Char, splitWordsAux cs acc = [] ↔ (cs.all isWordspace ∧ acc = []) := by
  intro cs
  induction cs with
  | nil =>
    intro acc
    cases acc with
    | nil => simp [splitWordsAux]
    | cons a as => simp [splitWordsAux]
  | cons c cs ih =>
    intro acc
    by_cases hws : isWordspace c
    · cases acc with
      | nil => simp [splitWordsAux, hws, ih]
      | cons a as => simp [splitWordsAux, hws]
    · simp [splitWordsAux, hws, ih]

/-- Tokenization yields zero tokens exactly on empty or whitespace-only
command strings. -/
theorem tokenize_eq_nil_iff (s : String) :
    tokenize s = [] ↔ s.data.all isWordspace = true := by
  unfold tokenize
  rw [List.map_eq_nil_iff, splitWordsAux_eq_nil_iff]
  simp

/-- A command with at least one token spawns: the token list is appended to
the process table and a fresh handle is returned. -/
theorem process_run_ok (w : World) (os : OsTable) (cmd : String) (stdin : Option String)
    (h : tokenize cmd ≠ []) :
    process_run w os cmd stdin = (os ++ [tokenize cmd], Except.ok (spawnedHandle w cmd)) := by
  unfold process_run spawnedHandle
  simp [h]

/-- Collecting a freshly spawned handle succeeds: the pipes are still open, so
communicate drains them and returns the result triple of the command. -/
theorem process_results_spawned (w : World) (cmd : String) :
    process_results (spawnedHandle w cmd) =
      Except.ok ({ spawnedHandle w cmd with
                     returncode := some (w (tokenize cmd)).code,
                     streamsClosed := true },
                 runResult w cmd) := rfl

/-- `process` on a command with tokens: spawn, wait, return the triple. -/
theorem process_ok (w : World) (os : OsTable) (cmd : String) (stdin : Option String)
    (h : tokenize cmd ≠ []) :
    process w os cmd stdin = (os ++ [tokenize cmd], Except.ok (runResult w cmd)) := by
  unfold process
  rw [process_run_ok w os cmd stdin h]
  simp only [process_results_spawned]

/-- A batch in which every command has tokens spawns completely, in input
order. -/
theorem run_processes_ok (w : World) (os : OsTable) (cmds : List String)
    (h : ∀ c ∈ cmds, tokenize c ≠ []) :
    run_processes w os cmds =
      (os ++ cmds.map tokenize, Except.ok (cmds.map (spawnedHandle w))) := by
  induction cmds generalizing os with
  | nil => simp [run_processes]
  | cons c rest ih =>
    have hc : tokenize c ≠ [] := h c (List.mem_cons_self c rest)
    have hrest : ∀ d ∈ rest, tokenize d ≠ [] := fun d hd => h d (List.mem_cons_of_mem c hd)
    simp only [run_processes, process_run_ok w os c none hc,
      ih (os ++ [tokenize c]) hrest, List.map_cons]
    simp

/-- Collecting a list of freshly spawned handles yields the result triples of
the commands, in the same order. -/
theorem collect_results_spawned (w : World) (cmds : List String) :
    collect_results (cmds.map (spawnedHandle w)) = Except.ok (cmds.map (runResult w)) := by
  induction cmds with
  | nil => rfl
  | cons c rest ih =>
    simp only [List.map_cons, collect_results, process_results_spawned, ih]

/-- `typical_process` on a spawnable command, evaluated: stderr is written
first, then stdout; a nonzero exit code adds the error message and exits with
the code of the child, a zero exit code returns the triple. -/
theorem typical_process_ok (w : World) (os : OsTable) (cmd msg : String)
    (stdin : Option String) (h : tokenize cmd ≠ []) :
    typical_process w os cmd msg stdin =
      (os ++ [tokenize cmd], Except.ok (
        if (w (tokenize cmd)).code = 0 then
          { writes := [(Sink.err, (w (tokenize cmd)).err), (Sink.out, (w (tokenize cmd)).out)],
            outcome := Termination.returned (runResult w cmd) }
        else
          { writes := [(Sink.err, (w (tokenize cmd)).err), (Sink.out, (w (tokenize cmd)).out),
                       (Sink.err, msg)],
            outcome := Termination.exited (some ((w (tokenize cmd)).code)) })) := by
  unfold typical_process
  rw [process_ok w os cmd stdin h]
  by_cases hc : (w (tokenize cmd)).code = 0
  · simp [runResult, hc]
  · simp [runResult, hc]

set_option maxHeartbeats 1000000 in
/-- asciiUpper sends exactly the letters y and Y to Y. -/
theorem asciiUpper_eq_Y_iff (c : Char) : asciiUpper c = 'Y' ↔ c = 'y' ∨ c = 'Y' := by
  by_cases h1 : c = 'a'
  · subst h1; decide
  by_cases h2 : c = 'b'
  · subst h2; decide
  by_cases h3 : c = 'c'
  · subst h3; decide
  by_cases h4 : c = 'd'
  · subst h4; decide
  by_cases h5 : c = 'e'
  · subst h5; decide
  by_cases h6 : c = 'f'
  · subst h6; decide
  by_cases h7 : c = 'g'
  · subst h7; decide
  by_cases h8 : c = 'h'
  · subst h8; decide
  by_cases h9 : c = 'i'
  · subst h9; decide
  by_cases h10 : c = 'j'
  · subst h10; decide
  by_cases h11 : c = 'k'
  · subst h11; decide
  by_cases h12 : c = 'l'
  · subst h12; decide
  by_cases h13 : c = 'm'
  · subst h13; decide
  by_cases h14 : c = 'n'
  · subst h14; decide
  by_cases h15 : c = 'o'
  · subst h15; decide
  by_cases h16 : c = 'p'
  · subst h16; decide
  by_cases h17 : c = 'q'
  · subst h17; decide
  by_cases h18 : c = 'r'
  · subst h18; decide
  by_cases h19 : c = 's'
  · subst h19; decide
  by_cases h20 : c = 't'
  · subst h20; decide
  by_cases h21 : c = 'u'
  · subst h21; decide
  by_cases h22 : c = 'v'
  · subst h22; decide
  by_cases h23 : c = 'w'
  · subst h23; decide
  by_cases h24 : c = 'x'
  · subst h24; decide
  by_cases h25 : c = 'y'
  · subst h25; decide
  by_cases h26 : c = 'z'
  · subst h26; decide
  have hval : asciiUpper c = c := by
    unfold asciiUpper
    rw [if_neg h1, if_neg h2, if_neg h3, if_neg h4, if_neg h5, if_neg h6, if_neg h7, if_neg h8, if_neg h9, if_neg h10, if_neg h11, if_neg h12, if_neg h13, if_neg h14, if_neg h15, if_neg h16, if_neg h17, if_neg h18, if_neg h19, if_neg h20, if_neg h21, if_neg h22, if_neg h23, if_neg h24, if_neg h25, if_neg h26]
  rw [hval]
  constructor
  · exact Or.inr
  · rintro (hy | hY)
    · exact absurd hy h25
    · exact hY

/-- pyCapitalize produces the string Y exactly on the one-letter inputs Y
and y. -/
theorem pyCapitalize_eq_Y_iff (s : String) : pyCapitalize s = "Y" ↔ s = "Y" ∨ s = "y" := by
  cases s with
  | mk data =>
    cases data with
    | nil => decide
    | cons c cs =>
      show String.mk (asciiUpper c :: cs.map asciiLower) = "Y" ↔ _
      simp only [String.ext_iff]
      show asciiUpper c :: cs.map asciiLower = ['Y'] ↔
        (c :: cs = ['Y'] ∨ c :: cs = ['y'])
      simp only [List.cons.injEq, List.map_eq_nil_iff, asciiUpper_eq_Y_iff]
      tauto

/-! ### Claim theorems -/

/-- Claim C1: for every handle list, every wait duration, and every
non-negative maxTries T, the poll loop terminates, performs at most T sleeps,
and performs at most j sleeps whenever the status-check pass after j sleeps
observes every handle with a terminal status (early exit). -/
theorem poll_processes_bounded_early_exit (procs : List PollProc) (wait : Int) (T : Nat) :
    ∃ s codes,
      poll_processes procs wait (T : Int) 0 (T + 1) = some (s, codes) ∧
      s ≤ T ∧ ∀ j : Nat, ¬ none ∈ pollOnce procs j → s ≤ j := by
  have h := poll_terminates_of_nonneg procs wait T 0
  simpa using h

/-- Claim C1 instantiated: two handles finishing at passes 2 and 0, polled
with wait 3 and maxTries 3. -/
theorem poll_processes_bounded_early_exit_case :
    ∃ s codes,
      poll_processes [⟨0, some 2⟩, ⟨1, some 0⟩] 3 ((3 : Nat) : Int) 0 (3 + 1) = some (s, codes) ∧
      s ≤ 3 ∧ ∀ j : Nat, ¬ none ∈ pollOnce [⟨0, some 2⟩, ⟨1, some 0⟩] j → s ≤ j :=
  poll_processes_bounded_early_exit [⟨0, some 2⟩, ⟨1, some 0⟩] 3 3

/-- Claim C2: calling the poll loop with maxTries 0 makes exactly one
status-check pass, sleeps zero times, and returns the statuses observed by
that first pass, whatever they are and for any wait duration. -/
theorem poll_processes_zero_tries (procs : List PollProc) (wait : Int) (k fuel : Nat) :
    poll_processes procs wait 0 k (fuel + 1) = some (0, pollOnce procs k) :=
  poll_processes_done procs wait 0 k fuel (by simp)

/-- Claim C10: with a negative tries value and a handle that never reaches a
terminal status, the poll loop never returns, however much fuel it is given;
with a non-negative tries value T it terminates with at most T sleeps. -/
theorem poll_processes_negative_tries_unbounded (procs : List PollProc) (wait tries : Int)
    (hneg : tries < 0) (hstuck : ∃ p ∈ procs, p.finishAt = none) :
    (∀ fuel k : Nat, poll_processes procs wait tries k fuel = none) ∧
    (∀ T : Nat, ∃ s codes,
      poll_processes procs wait (T : Int) 0 (T + 1) = some (s, codes) ∧ s ≤ T) := by
  obtain ⟨p, hp, hnone⟩ := hstuck
  constructor
  · have main : ∀ (fuel : Nat) (t : Int), t < 0 → ∀ k : Nat,
        poll_processes procs wait t k fuel = none := by
      intro fuel
      induction fuel with
      | zero => intro t _ k; rfl
      | succ fuel ih =>
        intro t ht k
        have hmem : none ∈ pollOnce procs k := by
          have h2 := List.mem_map_of_mem (fun q : PollProc =>
            match q.finishAt with
            | some f => if f ≤ k then some q.code else none
            | none => none) hp
          simpa [pollOnce, hnone] using h2
        rw [poll_processes_step procs wait t k fuel (by omega) hmem,
          ih (t - 1) (by omega) (k + 1)]
    exact fun fuel k => main fuel tries hneg k
  · intro T
    obtain ⟨s, codes, h1, h2, _⟩ := poll_terminates_of_nonneg procs wait T 0
    exact ⟨s, codes, h1, h2⟩

/-- Claim C10 instantiated: one never-finishing handle, wait 3, tries -1:
no return within 7 nested calls, while tries 2 returns with at most 2
sleeps. -/
theorem poll_processes_negative_tries_unbounded_case :
    (poll_processes [⟨0, none⟩] 3 (-1) 0 7 = none) ∧
    (∃ s codes,
      poll_processes [⟨0, none⟩] 3 ((2 : Nat) : Int) 0 (2 + 1) = some (s, codes) ∧ s ≤ 2) := by
  have h := poll_processes_negative_tries_unbounded [⟨0, none⟩] 3 (-1)
    (by norm_num) ⟨⟨0, none⟩, by simp, rfl⟩
  exact ⟨h.1 7 0, h.2 2⟩

/-- Claim C6: a command string tokenizes to zero tokens exactly when it is
empty or whitespace-only, and on any such string process_run fails with the
InvalidCommand spawn-time error, leaving the process table unchanged (no
process is started). -/
theorem process_run_invalid_command (w : World) (os : OsTable) (cmd : String)
    (stdin : Option String) :
    (tokenize cmd = [] ↔ cmd.data.all isWordspace = true) ∧
    (tokenize cmd = [] →
      process_run w os cmd stdin = (os, Except.error PyError.invalidCommand)) := by
  refine ⟨tokenize_eq_nil_iff cmd, fun h => ?_⟩
  unfold process_run
  simp [h]

/-- Claim C6 instantiated: the whitespace-only command string fails at spawn
time with InvalidCommand and starts no process. -/
theorem process_run_invalid_command_case :
    process_run (fun _ => ⟨0, "", ""⟩) [["ls"]] " \t " none =
      ([["ls"]], Except.error PyError.invalidCommand) :=
  (process_run_invalid_command (fun _ => ⟨0, "", ""⟩) [["ls"]] " \t " none).2 (by decide)

/-- Claim C8: when every command in the batch spawns, `processes` returns the
result triples in input order: the output has the same length as the input and
its i-th element is the result of the i-th command. The world function fixes
each command's behaviour independently of any completion order, so the
conclusion does not depend on which process finishes first. -/
theorem processes_preserve_order (w : World) (os : OsTable) (cmds : List String)
    (h : ∀ c ∈ cmds, tokenize c ≠ []) :
    ∃ results : List ProcessResult,
      processes w os cmds = (os ++ cmds.map tokenize, Except.ok results) ∧
      results.length = cmds.length ∧
      ∀ i : Nat, results[i]? = cmds[i]?.map (runResult w) := by
  refine ⟨cmds.map (runResult w), ?_, by simp, fun i => by simp [List.getElem?_map]⟩
  unfold processes
  rw [run_processes_ok w os cmds h]
  simp only [collect_results_spawned]

/-- Claim C8 instantiated: the two-command batch echo a, echo b returns both
results in input order. -/
theorem processes_preserve_order_case :
    ∃ results : List ProcessResult,
      processes (fun t => if t = ["echo", "a"] then ⟨0, "a\n", ""⟩ else ⟨0, "b\n", ""⟩)
          [] ["echo a", "echo b"] =
        ([] ++ (["echo a", "echo b"].map tokenize), Except.ok results) ∧
      results.length = (["echo a", "echo b"] : List String).length ∧
      ∀ i : Nat, results[i]? =
        ((["echo a", "echo b"] : List String)[i]?).map
          (runResult (fun t => if t = ["echo", "a"] then ⟨0, "a\n", ""⟩ else ⟨0, "b\n", ""⟩)) :=
  processes_preserve_order
    (fun t => if t = ["echo", "a"] then ⟨0, "a\n", ""⟩ else ⟨0, "b\n", ""⟩)
    [] ["echo a", "echo b"] (by decide)

/-- Claim C5 counterexample: in the batch echo a, whitespace, echo b the spawn
failure on the middle command aborts `run_processes`: the error propagates
with no partial collection of results or handles, and echo b is never spawned
(its token list is absent from the process table). -/
theorem run_processes_abort_counterexample :
    run_processes (fun _ => ⟨0, "", ""⟩) [] ["echo a", "   ", "echo b"] =
      ([["echo", "a"]], Except.error PyError.invalidCommand) ∧
    ["echo", "b"] ∉ (run_processes (fun _ => ⟨0, "", ""⟩) [] ["echo a", "   ", "echo b"]).1 := by
  exact ⟨rfl, by decide⟩

/-- Claim C5 (amended): a spawn failure on one command aborts the whole batch:
the error propagates immediately, the commands after the failing one are never
spawned, no partial list of handles is returned, and only the commands before
the failure are in the process table. -/
theorem run_processes_abort_on_failure (w : World) (os : OsTable)
    (pre : List String) (c : String) (post : List String)
    (hpre : ∀ d ∈ pre, tokenize d ≠ []) (hc : tokenize c = []) :
    run_processes w os (pre ++ c :: post) =
      (os ++ pre.map tokenize, Except.error PyError.invalidCommand) := by
  induction pre generalizing os with
  | nil => simp [run_processes, process_run, hc]
  | cons d rest ih =>
    have hd : tokenize d ≠ [] := hpre d (List.mem_cons_self d rest)
    have hrest : ∀ e ∈ rest, tokenize e ≠ [] := fun e he => hpre e (List.mem_cons_of_mem d he)
    rw [List.cons_append]
    simp only [run_processes, process_run_ok w os d none hd,
      ih (os ++ [tokenize d]) hrest, List.map_cons]
    simp

/-- Claim C5 amended-claim instantiated: the concrete aborted batch from the
amended statement. -/
theorem run_processes_abort_on_failure_case :
    run_processes (fun _ => ⟨0, "x", ""⟩) [] (["echo one"] ++ " " :: ["echo two"]) =
      ([] ++ ["echo one"].map tokenize, Except.error PyError.invalidCommand) :=
  run_processes_abort_on_failure (fun _ => ⟨0, "x", ""⟩) [] ["echo one"] " " ["echo two"]
    (by decide) (by decide)

/-- Claim C7: on a spawnable command, typical_process writes the captured
stderr to the error sink and then the captured stdout to the output sink; if
the exit code of the child is nonzero it additionally writes the configured
error message to the error sink and terminates the calling program with
exactly that exit code; if the exit code is zero it returns the result triple
without invoking the termination path. -/
theorem typical_process_guard (w : World) (os : OsTable) (cmd msg : String)
    (stdin : Option String) (h : tokenize cmd ≠ []) :
    ∃ t : TypicalOut,
      typical_process w os cmd msg stdin = (os ++ [tokenize cmd], Except.ok t) ∧
      t.writes.take 2 = [(Sink.err, (w (tokenize cmd)).err),
                         (Sink.out, (w (tokenize cmd)).out)] ∧
      ((w (tokenize cmd)).code ≠ 0 →
        t.writes = [(Sink.err, (w (tokenize cmd)).err), (Sink.out, (w (tokenize cmd)).out),
                    (Sink.err, msg)] ∧
        t.outcome = Termination.exited (some ((w (tokenize cmd)).code))) ∧
      ((w (tokenize cmd)).code = 0 →
        t.writes = [(Sink.err, (w (tokenize cmd)).err),
                    (Sink.out, (w (tokenize cmd)).out)] ∧
        t.outcome = Termination.returned (runResult w cmd)) := by
  rw [typical_process_ok w os cmd msg stdin h]
  by_cases hc : (w (tokenize cmd)).code = 0
  · refine ⟨_, rfl, ?_, ?_, ?_⟩ <;> simp [hc]
  · refine ⟨_, rfl, ?_, ?_, ?_⟩ <;> simp [hc]

/-- Claim C7 instantiated: a command exiting with code 2, error message
boom. -/
theorem typical_process_guard_case :
    ∃ t : TypicalOut,
      typical_process (fun _ => ⟨2, "o", "e"⟩) [] "badcmd" "boom" none =
        ([] ++ [tokenize "badcmd"], Except.ok t) ∧
      t.writes.take 2 = [(Sink.err, "e"), (Sink.out, "o")] ∧
      ((2 : Int) ≠ 0 →
        t.writes = [(Sink.err, "e"), (Sink.out, "o"), (Sink.err, "boom")] ∧
        t.outcome = Termination.exited (some 2)) ∧
      ((2 : Int) = 0 →
        t.writes = [(Sink.err, "e"), (Sink.out, "o")] ∧
        t.outcome = Termination.returned (runResult (fun _ => ⟨2, "o", "e"⟩) "badcmd")) :=
  typical_process_guard (fun _ => ⟨2, "o", "e"⟩) [] "badcmd" "boom" none (by decide)

/-- Claim C4 counterexample: the confirmation line yes has first character y,
yet dangerous_process aborts without running anything: its capitalization Yes
differs from Y, so the guarded run never happens and nothing is spawned. This
refutes the first-character rule. -/
theorem dangerous_process_yes_aborts :
    (("yes" : String).data.head? = some 'y') ∧
    (dangerous_process (fun _ => ⟨0, "", ""⟩) [] "rm -r tmp" "" none false "yes").2.guarded
      = none ∧
    (dangerous_process (fun _ => ⟨0, "", ""⟩) [] "rm -r tmp" "" none false "yes").1 = [] :=
  ⟨rfl, by decide, by decide⟩

/-- Claim C4 (amended): dangerous_process proceeds to the guarded run if and
only if the confirmation line is exactly the single letter Y or y; any other
line, including longer lines that begin with y such as yes, aborts without
running the command. -/
theorem dangerous_process_confirm_iff (w : World) (os : OsTable)
    (cmd msg : String) (stdin : Option String) (sudoFlag : Bool) (checkval : String) :
    (dangerous_process w os cmd msg stdin sudoFlag checkval).2.guarded.isSome = true ↔
      (checkval = "Y" ∨ checkval = "y") := by
  rw [← pyCapitalize_eq_Y_iff]
  unfold dangerous_process
  split_ifs with h <;> simp [h]

/-- Claim C9: dangerous_process never hands the guarded result back: even
when the confirmation is accepted, the command spawns, and the child exits
with code zero so that the guarded run produces a result triple, the value
returned by the call is None; indeed the returned value is None for every
confirmation line, since the body has no return statement. -/
theorem dangerous_process_discards_result (w : World) (os : OsTable)
    (cmd msg : String) (stdin : Option String) (sudoFlag : Bool) (checkval : String)
    (hyes : checkval = "Y" ∨ checkval = "y")
    (hspawn : tokenize cmd ≠ []) (hzero : (w (tokenize cmd)).code = 0) :
    (dangerous_process w os cmd msg stdin sudoFlag checkval).2.guarded =
      some (Except.ok
        { writes := [(Sink.err, (w (tokenize cmd)).err), (Sink.out, (w (tokenize cmd)).out)],
          outcome := Termination.returned (runResult w cmd) }) ∧
    (dangerous_process w os cmd msg stdin sudoFlag checkval).2.ret = none ∧
    ∀ cv : String, (dangerous_process w os cmd msg stdin sudoFlag cv).2.ret = none := by
  have hcap : pyCapitalize checkval = "Y" := (pyCapitalize_eq_Y_iff checkval).mpr hyes
  refine ⟨?_, ?_, ?_⟩
  · unfold dangerous_process
    rw [if_pos hcap]
    show some (typical_process w os cmd msg stdin).2 = _
    rw [typical_process_ok w os cmd msg stdin hspawn]
    simp [hzero]
  · unfold dangerous_process
    split_ifs
    all_goals rfl
  · intro cv
    unfold dangerous_process
    split_ifs
    all_goals rfl

/-- Claim C9 instantiated: confirmed with y, the command echo ok succeeds
with exit code zero, its triple exists inside the call, and None is
returned. -/
theorem dangerous_process_discards_result_case :
    (dangerous_process (fun _ => ⟨0, "ok\n", ""⟩) [] "echo ok" "" none false "y").2.guarded =
      some (Except.ok
        { writes := [(Sink.err, ""), (Sink.out, "ok\n")],
          outcome := Termination.returned (runResult (fun _ => ⟨0, "ok\n", ""⟩) "echo ok") }) ∧
    (dangerous_process (fun _ => ⟨0, "ok\n", ""⟩) [] "echo ok" "" none false "y").2.ret
      = none ∧
    ∀ cv : String,
      (dangerous_process (fun _ => ⟨0, "ok\n", ""⟩) [] "echo ok" "" none false cv).2.ret
        = none :=
  dangerous_process_discards_result (fun _ => ⟨0, "ok\n", ""⟩) [] "echo ok" "" none false "y"
    (Or.inr rfl) (by decide) rfl

/-- Claim C3 counterexample: collecting the same handle twice does not return
an identical triple: the first process_results call succeeds on a fresh
handle, while the second call on the collected handle raises ValueError
instead of returning any cached result. -/
theorem process_results_not_idempotent :
    process_results { code := 0, outData := "x\n", errData := "", returncode := none,
                      streamsClosed := false } =
      Except.ok ({ code := 0, outData := "x\n", errData := "", returncode := some 0,
                   streamsClosed := true },
                 { returncode := some 0, stdout := "x\n", stderr := "" }) ∧
    process_results { code := 0, outData := "x\n", errData := "", returncode := some 0,
                      streamsClosed := true } =
      Except.error PyError.valueError :=
  ⟨rfl, rfl⟩

/-- Claim C3 (amended): a second process_results call on a handle whose result
has already been collected does not return the cached triple: it fails with
ValueError, because the first communicate closed the drained stdout and stderr
pipes and CPython 2.7 communicate keeps no cache. Only the returncode field
survives on the handle. -/
theorem process_results_second_call_fails (p p2 : Popen) (r : ProcessResult)
    (h : process_results p = Except.ok (p2, r)) :
    process_results p2 = Except.error PyError.valueError := by
  by_cases hc : p.streamsClosed
  · have hbad : process_results p = Except.error PyError.valueError := by
      unfold process_results communicate
      rw [if_pos hc]
    rw [hbad] at h
    exact Except.noConfusion h
  · have heq : process_results p =
        Except.ok ({ p with returncode := some p.code, streamsClosed := true },
          { returncode := some p.code, stdout := p.outData, stderr := p.errData }) := by
      unfold process_results communicate
      rw [if_neg hc]
    rw [heq] at h
    simp only [Except.ok.injEq, Prod.mk.injEq] at h
    obtain ⟨hp2, -⟩ := h
    subst hp2
    rfl

/-- Claim C3 amended-claim instantiated: the second collection of a concrete
already-collected handle raises ValueError. -/
theorem process_results_second_call_fails_case :
    process_results { code := 1, outData := "y\n", errData := "w", returncode := some 1,
                      streamsClosed := true } = Except.error PyError.valueError :=
  process_results_second_call_fails
    { code := 1, outData := "y\n", errData := "w", returncode := none, streamsClosed := false }
    { code := 1, outData := "y\n", errData := "w", returncode := some 1, streamsClosed := true }
    { returncode := some 1, stdout := "y\n", stderr := "w" } rfl

end Dmf24
